import Mathlib

/-!
Verification of the koa-graphql middleware (`src/src/index.ts`,
`src/src/renderGraphiQL.ts`) against its natural-language specification.

The middleware glues an external GraphQL engine to Koa's request cycle:
it extracts request parameters, resolves per-request options, runs
parse/validate/execute against the engine, maps outcomes to HTTP status
codes and renders either a JSON body or a GraphiQL HTML page.

The external collaborators (graphql-js, express-graphql's
`getGraphQLParams`, Koa) are modelled abstractly as an `Engine` record of
functions; the middleware itself is embedded as a pure function from a
request context to a response, instrumented with a trace of pipeline
events so that ordering properties can be stated.

The sources provide `index.ts` only up to the line
`const validateFn = optionsData.customValidateFn ?? valid...` (line 206);
the remainder of the request pipeline (`resolveOptions` and the
query-gate / validation / execution / response-completion stages) is
absent from the sources and is modelled from the specification, the
repository README and the repository's own integration tests, as marked
on each definition below.
-/

namespace KoaGraphql

/-- A GraphQL error produced by the engine, reduced to its message
(locations and paths are engine internals the middleware passes through). -/
structure GQLError where
  message : String
deriving DecidableEq, Repr

/-- A formatted GraphQL error as it appears in the response JSON. -/
structure FormattedError where
  message : String
deriving DecidableEq, Repr

/-- Default spec-compliant error formatter of graphql-js (`formatError`),
the fallback formatter imported in src/src/index.ts line 22. -/
def formatError (e : GQLError) : FormattedError :=
  { message := e.message }

/-- Operation types of the GraphQL language. -/
inductive OpType where
  | query
  | mutation
  | subscription
deriving DecidableEq, Repr

/-- Printed name of an operation type, as interpolated into error messages. -/
def opTypeName : OpType → String
  | .query => "query"
  | .mutation => "mutation"
  | .subscription => "subscription"

/-- An operation definition of a parsed GraphQL document: an optional name
and an operation type. -/
structure OperationDef where
  name : Option String
  opType : OpType
deriving DecidableEq, Repr

/-- A parsed GraphQL document, abstracted to its list of operation
definitions (all the middleware itself inspects). -/
structure Document where
  operations : List OperationDef
deriving DecidableEq, Repr

/-- graphql-js `getOperationAST(document, operationName)` (imported in
src/src/index.ts line 23): with a name, the operation of that name; without
a name, the document's only operation, and none when the document holds
several. -/
def getOperationAST (doc : Document) (operationName : Option String) : Option OperationDef :=
  match operationName with
  | some name => doc.operations.find? (fun op => op.name == some name)
  | none =>
    match doc.operations with
    | [op] => some op
    | _ => none

/-- An opaque GraphQL schema token (schemas are engine-owned). -/
structure Schema where
  id : Nat
deriving DecidableEq, Repr

/-- An opaque validation rule token (rules are engine-owned). -/
structure Rule where
  id : Nat
deriving DecidableEq, Repr

/-- The Koa request, reduced to what the middleware reads: the HTTP
method, the content-negotiation outcome (whether `accepts(['json','html'])`
resolves to html, per the renderGraphiQL doc comment), and an opaque
payload standing for the query string and body that parameter extraction
reads. -/
structure KoaRequest where
  method : String
  prefersHTML : Bool
  payload : String
deriving DecidableEq, Repr

/-- The Koa context: its request and an opaque identity for its response
object (passed to options functions). -/
structure KoaContext where
  request : KoaRequest
  response : Nat
deriving DecidableEq, Repr

/-- Runtime values (contexts, root values, field data). `koaCtx` embeds the
Koa context so that its use as the default execution context is statable. -/
inductive Value where
  | null
  | str (s : String)
  | num (n : Nat)
  | koaCtx (c : KoaContext)
  | obj (fields : List (String × Value))
deriving Repr

/-- The GraphQL request parameters extracted by express-graphql's
`getGraphQLParams` (src/src/index.ts line 26): query, variables (kept
opaque as their JSON text), operation name, and the raw flag. -/
structure GraphQLParams where
  query : Option String
  vars : Option String
  operationName : Option String
  raw : Bool
deriving DecidableEq, Repr

/-- An error thrown by parameter extraction: an http-error with a status
and a message. -/
structure ParamErr where
  status : Nat
  message : String
deriving DecidableEq, Repr

/-- The argument record handed to the execute function, mirroring the
`ExecutionArgs` built for `executeFn` (fields per graphql-js and the
README's description of `rootValue`/`context`). Resolver functions are
opaque tokens; their semantics live in the engine's execute. -/
structure ExecutionArgs where
  schema : Schema
  document : Document
  rootValue : Option Value
  contextValue : Value
  variableValues : Option String
  operationName : Option String
  fieldResolver : Option Nat
  typeResolver : Option Nat
deriving Repr

/-- The engine's execution result: optional data, optional list of errors,
optional extensions, per the GraphQL response shape. -/
structure ExecResult where
  data : Option Value := none
  errors : Option (List GQLError) := none
  extensions : Option Value := none
deriving Repr

/-- The request information handed to an `extensions` option function
(src/src/index.ts lines 114-126 and README). -/
structure RequestInfo where
  document : Document
  vars : Option String
  operationName : Option String
  result : ExecResult
  context : Value

/-- GraphiQL editor theme parameter (src/src/renderGraphiQL.ts lines 49-54). -/
inductive EditorThemeParam where
  | byName (name : String)
  | byUrl (name : String) (url : String)

/-- GraphiQL options (src/src/renderGraphiQL.ts lines 10-47). -/
structure GraphiQLOptions where
  defaultQuery : Option String := none
  headerEditorEnabled : Option Bool := none
  shouldPersistHeaders : Option Bool := none
  subscriptionEndpoint : Option String := none
  websocketClient : Option String := none
  editorTheme : Option EditorThemeParam := none

/-- The `graphiql` option value: `false`, `true`, or an options object
(src/src/index.ts lines 128-132). -/
inductive GraphiqlConfig where
  | off
  | on
  | withOptions (opts : GraphiQLOptions)

/-- Whether a `graphiql` option value enables GraphiQL (`graphiql !== false`). -/
def graphiqlEnabled : GraphiqlConfig → Bool
  | .off => false
  | .on => true
  | .withOptions _ => true

/-- The formatted execution result placed in the response body: `data`,
`errors` and `extensions` fields, each omitted (none) when absent. -/
structure FormattedResult where
  data : Option Value := none
  errors : Option (List FormattedError) := none
  extensions : Option Value := none
deriving Repr

/-- The data embedded into a rendered GraphiQL page
(src/src/renderGraphiQL.ts lines 3-8). -/
structure GraphiQLData where
  query : Option String := none
  vars : Option String := none
  operationName : Option String := none
  result : Option FormattedResult := none
deriving Repr

/-- A response body: either the GraphQL JSON response (with its pretty
flag) or an HTML page embedding the GraphiQL IDE, represented by the data
the page is rendered from. -/
inductive Body where
  | json (result : FormattedResult) (pretty : Bool)
  | html (data : GraphiQLData)
deriving Repr

/-- The options data resolved for a request (src/src/index.ts lines 52-147).
Optional fields default to none, mirroring absent JS properties. -/
structure OptionsData where
  schema : Schema
  context : Option Value := none
  rootValue : Option Value := none
  pretty : Option Bool := none
  validationRules : Option (List Rule) := none
  customValidateFn : Option (Schema → Document → List Rule → List GQLError) := none
  customExecuteFn : Option (ExecutionArgs → ExecResult) := none
  customFormatErrorFn : Option (GQLError → FormattedError) := none
  customParseFn : Option (String → Except GQLError Document) := none
  formatError : Option (GQLError → FormattedError) := none
  extensions : Option (RequestInfo → Option Value) := none
  graphiql : Option GraphiqlConfig := none
  fieldResolver : Option Nat := none
  typeResolver : Option Nat := none

/-- The outcome of calling an options function: it may throw, or return a
value that is an options object or not (`none` models `null` or any
non-object value). -/
inductive OptionsOutcome where
  | throws (message : String)
  | value (v : Option OptionsData)

/-- The `Options` argument of `graphqlHTTP` (src/src/index.ts lines 42-50):
a static options object, or a function of (request, response, ctx, params). -/
inductive Options where
  | object (data : OptionsData)
  | func (f : KoaRequest → Nat → KoaContext → Option GraphQLParams → OptionsOutcome)

/-- The external collaborators consumed via narrow interfaces: parameter
extraction (express-graphql `getGraphQLParams`) and the GraphQL engine's
schema validation, parsing, document validation, execution and the
spec-defined rule set. -/
structure Engine where
  getGraphQLParams : KoaRequest → Except ParamErr GraphQLParams
  validateSchema : Schema → List GQLError
  parse : String → Except GQLError Document
  validate : Schema → Document → List Rule → List GQLError
  execute : ExecutionArgs → ExecResult
  specifiedRules : List Rule

/-- An http-error as thrown inside the middleware: a status, a message and
optionally an attached list of GraphQL errors. -/
structure HttpErr where
  status : Nat
  message : String
  graphqlErrors : Option (List GQLError) := none

/-- Pipeline events recorded while a request is processed, used to state
ordering and data-flow properties of the middleware. -/
inductive Event where
  | parsedParams (p : GraphQLParams)
  | paramsFailed (status : Nat) (message : String)
  | optionsCalled (req : KoaRequest) (res : Nat) (c : KoaContext) (ps : Option GraphQLParams)
  | docParsed (doc : Document)
  | validated (s : Schema) (doc : Document) (rules : List Rule)
  | executed (args : ExecutionArgs)
  | formatted
deriving Repr

/-- The pipeline phase of an event, for stating the fixed processing order. -/
def phaseOf : Event → Nat
  | .parsedParams _ => 0
  | .paramsFailed _ _ => 0
  | .optionsCalled _ _ _ _ => 1
  | .docParsed _ => 2
  | .validated _ _ _ => 3
  | .executed _ => 4
  | .formatted => 5

/-- Whether a list of numbers is strictly ascending. -/
def ascending : List Nat → Bool
  | [] => true
  | [_] => true
  | a :: b :: rest => Nat.blt a b && ascending (b :: rest)

/-- The middleware's result for one request: the HTTP status, the response
body, and the trace of pipeline events. -/
structure MwResult where
  status : Nat
  body : Body
  trace : List Event
deriving Repr

/-- Modelled from the spec: `resolveOptions` (the helper of `middleware`,
situated in src/src/index.ts after line 206 and absent from the sources).
Per the spec it resolves the per-request configuration from a static
object or a sync/async factory function, and per the repository's
usage tests a function that throws yields its error and a function
returning a non-object yields the fixed 500 options-resolution error.
The second component records whether the options function was invoked and
with which arguments (it is called with (request, response, ctx, params)). -/
def resolveOptions (options : Options) (ctx : KoaContext)
    (params : Option GraphQLParams) : Except HttpErr OptionsData × List Event :=
  match options with
  | .object od => (.ok od, [])
  | .func f =>
    let ev := Event.optionsCalled ctx.request ctx.response ctx params
    match f ctx.request ctx.response ctx params with
    | .throws msg => (.error { status := 500, message := msg }, [ev])
    | .value none =>
      (.error { status := 500,
                message := "GraphQL middleware option function must return an options object or a promise which will be resolved to an options object." },
       [ev])
    | .value (some od) => (.ok od, [ev])

/-- The resolved error formatter: `customFormatErrorFn`, else the
deprecated `formatError` option, else graphql-js's default `formatError`
(src/src/index.ts lines 185-188). -/
def resolvedFormatter (od : OptionsData) : GQLError → FormattedError :=
  od.customFormatErrorFn.getD (od.formatError.getD formatError)

/-- The execution arguments assembled for `executeFn`: the resolved
schema, the parsed document, the resolved rootValue, the resolved context
(`optionsData.context ?? ctx`, src/src/index.ts line 203), the request's
variables and operation name, and the resolved resolvers. -/
def mkExecArgs (od : OptionsData) (ctx : KoaContext) (doc : Document)
    (p : GraphQLParams) : ExecutionArgs :=
  { schema := od.schema
    document := doc
    rootValue := od.rootValue
    contextValue := od.context.getD (Value.koaCtx ctx)
    variableValues := p.vars
    operationName := p.operationName
    fieldResolver := od.fieldResolver
    typeResolver := od.typeResolver }

/-- The request information record built for an `extensions` option
function: the document, variables, operation name, result and context of
the request (src/src/index.ts lines 124-126 and the README). -/
def mkRequestInfo (doc : Document) (p : GraphQLParams) (contextVal : Value)
    (r : ExecResult) : RequestInfo :=
  { document := doc, vars := p.vars, operationName := p.operationName,
    result := r, context := contextVal }

/-- Modelled from the spec: application of the `extensions` option
(described in src/src/index.ts lines 114-126 and the README; the call
site is in the part of `middleware` absent from the sources): when an
extensions function is provided and returns a value, it is added to the
result's extensions field. -/
def applyExtensions (od : OptionsData) (doc : Document) (p : GraphQLParams)
    (contextVal : Value) (r : ExecResult) : ExecResult :=
  match od.extensions with
  | none => r
  | some f =>
    match f (mkRequestInfo doc p contextVal r) with
    | none => r
    | some ext => { r with extensions := some ext }

/-- Modelled from the spec: the response-completion stage of `middleware`
(the part after src/src/index.ts line 206, absent from the sources). Per
the spec, outcomes are mapped to status codes — the carried status of a
raised error, 200 for success including partial errors — and a result
without data is an internal failure reported as 500 (the repository's own
tests pin this: a result whose data is null yields status 500). Errors are
formatted with the pluggable formatter, and the body is the JSON response,
or the GraphiQL page pre-populated with the request and its formatted
result when GraphiQL is to be shown. -/
def finalize (showGraphiQL : Bool) (pretty : Bool)
    (fmt : GQLError → FormattedError) (params : Option GraphQLParams)
    (outcome : Except HttpErr ExecResult) (trace : List Event) : MwResult :=
  let st0 : Nat := match outcome with | .error e => e.status | .ok _ => 200
  let result : ExecResult :=
    match outcome with
    | .error e =>
      { data := none
        errors := some (match e.graphqlErrors with
          | some gs => gs
          | none => [{ message := e.message }]) }
    | .ok r => r
  let status := if st0 == 200 && result.data.isNone then 500 else st0
  let fres : FormattedResult :=
    { data := result.data
      errors := result.errors.map (fun es => es.map fmt)
      extensions := result.extensions }
  if showGraphiQL then
    { status := status
      body := .html { query := params.bind (fun p => p.query)
                      vars := params.bind (fun p => p.vars)
                      operationName := params.bind (fun p => p.operationName)
                      result := some fres }
      trace := trace }
  else
    { status := status, body := .json fres pretty, trace := trace }

/-- Modelled from the spec: the query-processing stage of `middleware`
(the part after src/src/index.ts line 206, absent from the sources),
reconstructed from the spec's pipeline "parse → resolve options →
execute → format", its status-code table, the README and the repository's
tests: collect the resolved option values with their defaults (the present
lines 196-206 of index.ts), require a query unless GraphiQL will be shown
(400 otherwise), report schema-validation errors as 500, syntax errors as
400, validation errors against the spec rules plus the additional
validationRules as 400, refuse non-query operations on GET with 405, and
otherwise execute and complete the response. -/
def mainPhase (engine : Engine) (ctx : KoaContext) (od : OptionsData)
    (p : GraphQLParams) (evsBefore : List Event) : MwResult :=
  let pretty := od.pretty.getD false
  let fmt := resolvedFormatter od
  let validationRules := od.validationRules.getD []
  let graphiql := od.graphiql.getD .off
  let contextVal := od.context.getD (Value.koaCtx ctx)
  let parseFn := od.customParseFn.getD engine.parse
  let executeFn := od.customExecuteFn.getD engine.execute
  let validateFn := od.customValidateFn.getD engine.validate
  let showGraphiQL := graphiqlEnabled graphiql && !p.raw && ctx.request.prefersHTML
  match p.query with
  | none =>
    if showGraphiQL then
      { status := 200, body := .html {}, trace := evsBefore }
    else
      finalize showGraphiQL pretty fmt (some p)
        (.error { status := 400, message := "Must provide query string." })
        (evsBefore ++ [.formatted])
  | some q =>
    let serrs := engine.validateSchema od.schema
    if serrs.isEmpty then
      match parseFn q with
      | .error serr =>
        finalize showGraphiQL pretty fmt (some p)
          (.error { status := 400, message := "GraphQL syntax error.",
                    graphqlErrors := some [serr] })
          (evsBefore ++ [.formatted])
      | .ok doc =>
        let rules := engine.specifiedRules ++ validationRules
        let verrs := validateFn od.schema doc rules
        let evs := evsBefore ++ [.docParsed doc, .validated od.schema doc rules]
        if verrs.isEmpty then
          match (if ctx.request.method == "GET" then getOperationAST doc p.operationName else none) with
          | some op =>
            if op.opType == .query then
              let args := mkExecArgs od ctx doc p
              finalize showGraphiQL pretty fmt (some p)
                (.ok (applyExtensions od doc p contextVal (executeFn args)))
                (evs ++ [.executed args, .formatted])
            else
              finalize showGraphiQL pretty fmt (some p)
                (.error { status := 405,
                          message := "Can only perform a " ++ opTypeName op.opType ++ " operation from a POST request." })
                (evs ++ [.formatted])
          | none =>
            let args := mkExecArgs od ctx doc p
            finalize showGraphiQL pretty fmt (some p)
              (.ok (applyExtensions od doc p contextVal (executeFn args)))
              (evs ++ [.executed args, .formatted])
        else
          finalize showGraphiQL pretty fmt (some p)
            (.error { status := 400, message := "GraphQL validation error.",
                      graphqlErrors := some verrs })
            (evs ++ [.formatted])
    else
      finalize showGraphiQL pretty fmt (some p)
        (.error { status := 500, message := "GraphQL schema validation error.",
                  graphqlErrors := some serrs })
        (evsBefore ++ [.formatted])

/-- The middleware's handling of one request (src/src/index.ts lines
158-206 for parameter extraction, the parameter-failure path that still
resolves options to obtain `pretty` and the error formatter, and options
resolution; the later stages are the modelled definitions above). A
parameter-extraction error keeps its own http status (the outer catch
re-raises it unchanged); an options-resolution failure replaces it and is
reported with the default formatter since the options never resolved. -/
def middleware (options : Options) (engine : Engine) (ctx : KoaContext) : MwResult :=
  match engine.getGraphQLParams ctx.request with
  | .error perr =>
    let ro := resolveOptions options ctx none
    match ro.1 with
    | .error oerr =>
      finalize false false formatError none (.error oerr)
        (Event.paramsFailed perr.status perr.message :: ro.2 ++ [.formatted])
    | .ok od =>
      finalize false (od.pretty.getD false) (resolvedFormatter od) none
        (.error { status := perr.status, message := perr.message })
        (Event.paramsFailed perr.status perr.message :: ro.2 ++ [.formatted])
  | .ok p =>
    let ro := resolveOptions options ctx (some p)
    match ro.1 with
    | .error oerr =>
      finalize false false formatError (some p) (.error oerr)
        (Event.parsedParams p :: ro.2 ++ [.formatted])
    | .ok od => mainPhase engine ctx od p (Event.parsedParams p :: ro.2)

/-- `graphqlHTTP` (src/src/index.ts line 155): builds the middleware from
its options. -/
def graphqlHTTP (options : Options) (engine : Engine) : KoaContext → MwResult :=
  fun ctx => middleware options engine ctx

/-- Sequential handling of a batch of requests, one after the other, each
invocation declaring its per-request variables afresh (src/src/index.ts
lines 163-170). -/
def runSequential (options : Options) (engine : Engine) : List KoaContext → List MwResult
  | [] => []
  | c :: cs => middleware options engine c :: runSequential options engine cs

/-- The errors field of a JSON body (none for an HTML body). -/
def jsonErrors : Body → Option (List FormattedError)
  | .json fres _ => fres.errors
  | .html _ => none

/-- The data field of a JSON body (none for an HTML body). -/
def jsonData : Body → Option Value
  | .json fres _ => fres.data
  | .html _ => none

/-- The 405 message reported for a mutation sent via GET, as asserted by
the repository's http tests. -/
def msg405 : String := "Can only perform a mutation operation from a POST request."

/-- The engine's error for a query with several operations and no
operation name, as asserted by the repository's http tests. -/
def msgNoOpName : String := "Must provide operation name if query contains multiple operations."

/-- The options-resolution error message, as asserted by the repository's
usage tests. -/
def msgOptionsObject : String := "GraphQL middleware option function must return an options object or a promise which will be resolved to an options object."

/-! Concrete instances mirroring the repository's test schema and queries,
used to evaluate the middleware on the inputs the integration tests use.
The engine instance reproduces graphql-js's documented behaviour on the
handful of documents the tests exercise. -/

/-- A schema token standing for the tests' TestSchema. -/
def testSchema : Schema := { id := 0 }

/-- The named query operation of the tests' two-operation document. -/
def opTestQuery : OperationDef := { name := some "TestQuery", opType := .query }

/-- The named mutation operation of the tests' documents. -/
def opTestMutation : OperationDef := { name := some "TestMutation", opType := .mutation }

/-- A document with a single anonymous query operation. -/
def simpleDoc : Document := { operations := [{ name := none, opType := .query }] }

/-- A document whose only operation is the named mutation. -/
def mutationDoc : Document := { operations := [opTestMutation] }

/-- A document holding a named query and a named mutation. -/
def twoOpDoc : Document := { operations := [opTestQuery, opTestMutation] }

/-- A document that fails validation (unknown fields). -/
def invalidDoc : Document := { operations := [{ name := some "Invalid", opType := .query }] }

/-- A document whose resolver throws at execution time. -/
def throwerDoc : Document := { operations := [{ name := some "Thrower", opType := .query }] }

/-- Query text mapped by the test engine to `simpleDoc`. -/
def qSimple : String := "simple-query"

/-- Query text mapped by the test engine to `mutationDoc`. -/
def qMutation : String := "mutation-only"

/-- Query text mapped by the test engine to `twoOpDoc`. -/
def qTwoOps : String := "two-operations"

/-- Query text mapped by the test engine to `invalidDoc`. -/
def qInvalid : String := "invalid-field"

/-- Query text mapped by the test engine to `throwerDoc`. -/
def qThrower : String := "thrower-query"

/-- The data the test schema produces for the simple query. -/
def helloWorld : Value := .obj [("test", .str "Hello World")]

/-- The data the test schema produces for the mutation. -/
def writeTestData : Value := .obj [("writeTest", helloWorld)]

/-- Parameters with a query, an operation name and defaults otherwise. -/
def mkParams (q : Option String) (opName : Option String) : GraphQLParams :=
  { query := q, vars := none, operationName := opName, raw := false }

/-- A concrete engine mirroring express-graphql parameter extraction and
graphql-js behaviour on the test documents: the request payload selects
the extracted parameters, parsing maps the query texts to their documents,
validation rejects `invalidDoc`, and execution reproduces the tests'
results, including the missing-operation-name error and the thrower field
error. -/
def testEngine : Engine :=
  { getGraphQLParams := fun req =>
      if req.payload = "bad-body" then .error { status := 400, message := "POST body sent invalid JSON." }
      else if req.payload = "q-simple" then .ok (mkParams (some qSimple) none)
      else if req.payload = "q-mutation" then .ok (mkParams (some qMutation) none)
      else if req.payload = "q-two-ops" then .ok (mkParams (some qTwoOps) none)
      else if req.payload = "q-two-ops-query" then .ok (mkParams (some qTwoOps) (some "TestQuery"))
      else if req.payload = "q-two-ops-mutation" then .ok (mkParams (some qTwoOps) (some "TestMutation"))
      else if req.payload = "q-invalid" then .ok (mkParams (some qInvalid) none)
      else if req.payload = "q-thrower" then .ok (mkParams (some qThrower) none)
      else .ok (mkParams none none)
    validateSchema := fun _ => []
    parse := fun q =>
      if q = qSimple then .ok simpleDoc
      else if q = qMutation then .ok mutationDoc
      else if q = qTwoOps then .ok twoOpDoc
      else if q = qInvalid then .ok invalidDoc
      else if q = qThrower then .ok throwerDoc
      else .error { message := "Syntax Error: Unexpected input." }
    validate := fun _ doc _ =>
      if doc = invalidDoc then
        [{ message := "Cannot query field unknownOne on type QueryRoot." },
         { message := "Cannot query field unknownTwo on type QueryRoot." }]
      else []
    execute := fun args =>
      if args.document = simpleDoc then { data := some helloWorld }
      else if args.document = mutationDoc then { data := some writeTestData }
      else if args.document = twoOpDoc then
        match args.operationName with
        | some n =>
          if n = "TestQuery" then { data := some helloWorld }
          else if n = "TestMutation" then { data := some writeTestData }
          else { errors := some [{ message := "Unknown operation named " ++ n ++ "." }] }
        | none => { errors := some [{ message := msgNoOpName }] }
      else if args.document = throwerDoc then
        { data := some (.obj [("thrower", Value.null)])
          errors := some [{ message := "Throws!" }] }
      else { errors := some [{ message := "Unexpected document." }] }
    specifiedRules := [] }

/-- A GET request context carrying the given payload, JSON-accepting. -/
def getCtx (payload : String) : KoaContext :=
  { request := { method := "GET", prefersHTML := false, payload := payload }, response := 7 }

/-- A POST request context carrying the given payload, JSON-accepting. -/
def postCtx (payload : String) : KoaContext :=
  { request := { method := "POST", prefersHTML := false, payload := payload }, response := 7 }

/-- A GET request context whose content negotiation prefers HTML. -/
def htmlGetCtx (payload : String) : KoaContext :=
  { request := { method := "GET", prefersHTML := true, payload := payload }, response := 7 }

/-- Static options holding only the test schema. -/
def staticOptions : Options := .object { schema := testSchema }

/-- Response completion stores the trace it is given. -/
theorem finalize_trace (s pretty : Bool) (fmt : GQLError → FormattedError)
    (ps : Option GraphQLParams) (out : Except HttpErr ExecResult) (tr : List Event) :
    (finalize s pretty fmt ps out tr).trace = tr := by
  simp only [finalize]
  split <;> rfl

/-- Extension application never alters the result's data. -/
theorem applyExtensions_data (od : OptionsData) (doc : Document) (p : GraphQLParams)
    (cv : Value) (r : ExecResult) : (applyExtensions od doc p cv r).data = r.data := by
  rcases hx : od.extensions with _ | f
  · simp [applyExtensions, hx]
  · rcases hy : f (mkRequestInfo doc p cv r) with _ | ext <;> simp [applyExtensions, hx, hy]

/-- Extension application never alters the result's errors. -/
theorem applyExtensions_errors (od : OptionsData) (doc : Document) (p : GraphQLParams)
    (cv : Value) (r : ExecResult) : (applyExtensions od doc p cv r).errors = r.errors := by
  rcases hx : od.extensions with _ | f
  · simp [applyExtensions, hx]
  · rcases hy : f (mkRequestInfo doc p cv r) with _ | ext <;> simp [applyExtensions, hx, hy]

/-- Response completion of an engine result: 200 with data, 500 without. -/
theorem finalize_ok_status (s pretty : Bool) (fmt : GQLError → FormattedError)
    (ps : Option GraphQLParams) (r : ExecResult) (tr : List Event) :
    (finalize s pretty fmt ps (.ok r) tr).status = if r.data.isNone then 500 else 200 := by
  simp only [finalize]
  rcases r.data with _ | d <;> split <;> simp

/-- Response completion of a raised error keeps its status (away from 200). -/
theorem finalize_err_status (s pretty : Bool) (fmt : GQLError → FormattedError)
    (ps : Option GraphQLParams) (e : HttpErr) (tr : List Event) (h : e.status ≠ 200) :
    (finalize s pretty fmt ps (.error e) tr).status = e.status := by
  simp only [finalize]
  split <;> simp [h]

/-- The JSON errors of a completed engine result are its formatted errors. -/
theorem finalize_ok_jsonErrors (pretty : Bool) (fmt : GQLError → FormattedError)
    (ps : Option GraphQLParams) (r : ExecResult) (tr : List Event) :
    jsonErrors (finalize false pretty fmt ps (.ok r) tr).body =
      r.errors.map (fun es => es.map fmt) := by
  simp [finalize, jsonErrors]

/-- The JSON errors of a completed raised error are its attached GraphQL
errors, or its message as one error, formatted. -/
theorem finalize_err_jsonErrors (pretty : Bool) (fmt : GQLError → FormattedError)
    (ps : Option GraphQLParams) (e : HttpErr) (tr : List Event) :
    jsonErrors (finalize false pretty fmt ps (.error e) tr).body =
      some ((e.graphqlErrors.getD [{ message := e.message }]).map fmt) := by
  rcases he : e.graphqlErrors with _ | gs <;> simp [finalize, jsonErrors, he]

/-- Only a completion asked to show GraphiQL can produce an HTML body. -/
theorem finalize_html (s pretty : Bool) (fmt : GQLError → FormattedError)
    (ps : Option GraphQLParams) (out : Except HttpErr ExecResult) (tr : List Event)
    (g : GraphiQLData) (h : (finalize s pretty fmt ps out tr).body = .html g) : s = true := by
  cases s
  · simp [finalize] at h
  · rfl

/-- The query-processing stage appends only document, validation,
execution and formatting events: an options-invocation event in its
trace comes from the given initial trace. -/
theorem mainPhase_optionsCalled (engine : Engine) (ctx : KoaContext) (od : OptionsData)
    (p : GraphQLParams) (evs : List Event) (r : KoaRequest) (rs : Nat) (c : KoaContext)
    (ps : Option GraphQLParams)
    (h : Event.optionsCalled r rs c ps ∈ (mainPhase engine ctx od p evs).trace) :
    Event.optionsCalled r rs c ps ∈ evs := by
  simp only [mainPhase] at h
  repeat' split at h
  all_goals try rw [finalize_trace] at h
  all_goals simpa using h

/-- An execution event in the query-processing stage's trace comes from
the initial trace, or carries exactly the arguments assembled from the
resolved options, the context and the document parsed from the request's
query by the resolved parse function. -/
theorem mainPhase_executed (engine : Engine) (ctx : KoaContext) (od : OptionsData)
    (p : GraphQLParams) (evs : List Event) (args : ExecutionArgs)
    (h : Event.executed args ∈ (mainPhase engine ctx od p evs).trace) :
    Event.executed args ∈ evs ∨
      ∃ q doc, p.query = some q ∧ (od.customParseFn.getD engine.parse) q = .ok doc ∧
        args = mkExecArgs od ctx doc p := by
  simp only [mainPhase] at h
  repeat' split at h
  all_goals try rw [finalize_trace] at h
  all_goals try simp at h
  all_goals
    first
    | exact Or.inl h
    | (rcases h with h | h
       · exact Or.inl h
       · exact Or.inr ⟨_, _, by assumption, by assumption, h⟩)

/-- A validation event in the query-processing stage's trace comes from
the initial trace, or carries the resolved schema and the spec-defined
rules followed by the additional validationRules. -/
theorem mainPhase_validated (engine : Engine) (ctx : KoaContext) (od : OptionsData)
    (p : GraphQLParams) (evs : List Event) (s : Schema) (d : Document) (rules : List Rule)
    (h : Event.validated s d rules ∈ (mainPhase engine ctx od p evs).trace) :
    Event.validated s d rules ∈ evs ∨
      (s = od.schema ∧ rules = engine.specifiedRules ++ od.validationRules.getD []) := by
  simp only [mainPhase] at h
  repeat' split at h
  all_goals try rw [finalize_trace] at h
  all_goals try simp at h
  all_goals
    first
    | exact Or.inl h
    | (rcases h with h | h
       · exact Or.inl h
       · exact Or.inr ⟨h.1, h.2.2⟩)

/-- An HTML body can only leave the query-processing stage when the
resolved graphiql option is enabled, the raw parameter is not set, and
the request's content negotiation resolves to HTML. -/
theorem mainPhase_html (engine : Engine) (ctx : KoaContext) (od : OptionsData)
    (p : GraphQLParams) (evs : List Event) (g : GraphiQLData)
    (h : (mainPhase engine ctx od p evs).body = .html g) :
    graphiqlEnabled (od.graphiql.getD .off) = true ∧ p.raw = false ∧
      ctx.request.prefersHTML = true := by
  have hs : (graphiqlEnabled (od.graphiql.getD GraphiqlConfig.off) && !p.raw &&
      ctx.request.prefersHTML) = true := by
    simp only [mainPhase] at h
    repeat' split at h
    all_goals
      first
      | assumption
      | exact finalize_html _ _ _ _ _ _ _ h
  have h1 := hs
  simp only [Bool.and_eq_true, Bool.not_eq_true'] at h1
  exact ⟨h1.1.1, h1.1.2, h1.2⟩

/-- Claim C1: on a GET request whose parameters extract, whose options
resolve without a custom error formatter, and whose query parses and
validates, the middleware answers 405 with the single message "Can only
perform a mutation operation from a POST request." exactly when the
operation to be performed — the operation selected by operationName, or
the document's only operation — is a mutation; and when the selected
operation is a query the request proceeds to execution and succeeds with
200 whenever the engine returns data, even if the same document also
holds a mutation operation. -/
theorem get_mutation_405_iff
    (engine : Engine) (opts : Options) (ctx : KoaContext) (p : GraphQLParams)
    (od : OptionsData) (q : String) (doc : Document)
    (hmethod : ctx.request.method = "GET")
    (hHTML : ctx.request.prefersHTML = false)
    (hparams : engine.getGraphQLParams ctx.request = .ok p)
    (hopts : (resolveOptions opts ctx (some p)).1 = .ok od)
    (hfmt1 : od.customFormatErrorFn = none)
    (hfmt2 : od.formatError = none)
    (hq : p.query = some q)
    (hschema : engine.validateSchema od.schema = [])
    (hparse : (od.customParseFn.getD engine.parse) q = .ok doc)
    (hval : (od.customValidateFn.getD engine.validate) od.schema doc
        (engine.specifiedRules ++ od.validationRules.getD []) = []) :
    (((middleware opts engine ctx).status = 405 ∧
        jsonErrors (middleware opts engine ctx).body = some [{ message := msg405 }])
      ↔ ∃ op, getOperationAST doc p.operationName = some op ∧ op.opType = .mutation)
    ∧ (∀ op r d, getOperationAST doc p.operationName = some op → op.opType = .query →
        (od.customExecuteFn.getD engine.execute) (mkExecArgs od ctx doc p) = r →
        r.data = some d →
        (middleware opts engine ctx).status = 200) := by
  have hfmt : resolvedFormatter od = formatError := by
    simp [resolvedFormatter, hfmt1, hfmt2]
  simp only [middleware, hparams, hopts, mainPhase, hq, hschema, hparse, hval, hmethod,
    hHTML, List.isEmpty_nil, Bool.and_false, hfmt, beq_self_eq_true, if_true]
  rcases hg : getOperationAST doc p.operationName with _ | op
  · refine ⟨⟨?_, ?_⟩, ?_⟩
    · rintro ⟨h405, -⟩
      rw [finalize_ok_status] at h405
      split at h405 <;> omega
    · rintro ⟨op, hop, -⟩
      cases hop
    · intro op r d hop
      cases hop
  · rcases hop : op.opType with _ | _ | _
    · refine ⟨⟨?_, ?_⟩, ?_⟩
      · rintro ⟨h405, -⟩
        simp only [hop, beq_self_eq_true, if_true] at h405
        rw [finalize_ok_status] at h405
        split at h405 <;> omega
      · rintro ⟨op', hs, hm⟩
        injection hs with he
        rw [← he, hop] at hm
        cases hm
      · intro op' r d hs hq' hr hd
        simp only [hop, beq_self_eq_true, if_true]
        rw [finalize_ok_status, hr, applyExtensions_data, hd]
        rfl
    · refine ⟨⟨?_, ?_⟩, ?_⟩
      · intro h
        exact ⟨op, rfl, hop⟩
      · intro h
        simp only [hop, show (OpType.mutation == OpType.query) = false from rfl,
          Bool.false_eq_true, if_false]
        constructor
        · rw [finalize_err_status]
          decide
        · rw [finalize_err_jsonErrors]
          decide
      · intro op' r d hs hq' hr hd
        injection hs with he
        rw [← he, hop] at hq'
        cases hq'
    · refine ⟨⟨?_, ?_⟩, ?_⟩
      · rintro ⟨-, hmsg⟩
        simp only [hop, show (OpType.subscription == OpType.query) = false from rfl,
          Bool.false_eq_true, if_false] at hmsg
        rw [finalize_err_jsonErrors] at hmsg
        exact absurd hmsg (by decide)
      · rintro ⟨op', hs, hm⟩
        injection hs with he
        rw [← he, hop] at hm
        cases hm
      · intro op' r d hs hq' hr hd
        injection hs with he
        rw [← he, hop] at hq'
        cases hq'

/-- Claim C2: a request whose query parses but fails GraphQL validation
against the schema and the additional validationRules is answered with
status 400 and a JSON body holding only an errors array — one formatted
error per validation error — and no data field. -/
theorem validation_errors_are_400
    (engine : Engine) (opts : Options) (ctx : KoaContext) (p : GraphQLParams)
    (od : OptionsData) (q : String) (doc : Document) (verrs : List GQLError)
    (hHTML : ctx.request.prefersHTML = false)
    (hparams : engine.getGraphQLParams ctx.request = .ok p)
    (hopts : (resolveOptions opts ctx (some p)).1 = .ok od)
    (hq : p.query = some q)
    (hschema : engine.validateSchema od.schema = [])
    (hparse : (od.customParseFn.getD engine.parse) q = .ok doc)
    (hval : (od.customValidateFn.getD engine.validate) od.schema doc
        (engine.specifiedRules ++ od.validationRules.getD []) = verrs)
    (hne : verrs ≠ []) :
    (middleware opts engine ctx).status = 400 ∧
    (middleware opts engine ctx).body =
      .json { data := none, errors := some (verrs.map (resolvedFormatter od)), extensions := none }
        (od.pretty.getD false) := by
  obtain ⟨e, es, rfl⟩ : ∃ e es, verrs = e :: es := by
    cases verrs with
    | nil => exact absurd rfl hne
    | cons e es => exact ⟨e, es, rfl⟩
  simp only [middleware, hparams, hopts, mainPhase, hq, hschema, hparse, hval, hHTML,
    Bool.and_false, List.isEmpty_nil, List.isEmpty_cons, finalize]
  simp

/-- Claim C3: a request whose operation executes and whose result carries
field errors alongside data is answered with status 200 and a JSON body
holding both the data (as the engine returned it, null at failed
positions) and the formatted field errors. -/
theorem field_errors_are_200
    (engine : Engine) (opts : Options) (ctx : KoaContext) (p : GraphQLParams)
    (od : OptionsData) (q : String) (doc : Document) (r : ExecResult)
    (d : Value) (es : List GQLError)
    (hHTML : ctx.request.prefersHTML = false)
    (hparams : engine.getGraphQLParams ctx.request = .ok p)
    (hopts : (resolveOptions opts ctx (some p)).1 = .ok od)
    (hq : p.query = some q)
    (hschema : engine.validateSchema od.schema = [])
    (hparse : (od.customParseFn.getD engine.parse) q = .ok doc)
    (hval : (od.customValidateFn.getD engine.validate) od.schema doc
        (engine.specifiedRules ++ od.validationRules.getD []) = [])
    (hgate : ∀ op, (if ctx.request.method == "GET" then getOperationAST doc p.operationName else none) = some op →
        op.opType = .query)
    (hext : od.extensions = none)
    (hexec : (od.customExecuteFn.getD engine.execute) (mkExecArgs od ctx doc p) = r)
    (hdata : r.data = some d)
    (herrs : r.errors = some es) :
    (middleware opts engine ctx).status = 200 ∧
    (middleware opts engine ctx).body =
      .json { data := some d, errors := some (es.map (resolvedFormatter od)), extensions := r.extensions }
        (od.pretty.getD false) := by
  simp only [middleware, hparams, hopts, mainPhase, hq, hschema, hparse, hval, hHTML,
    Bool.and_false, List.isEmpty_nil]
  rcases hg : (if ctx.request.method == "GET" then getOperationAST doc p.operationName else none) with _ | op
  · simp only [applyExtensions, hext, hexec, finalize]
    simp [hdata, herrs]
  · have hop := hgate op hg
    simp only [hop, applyExtensions, hext, hexec, finalize]
    simp [hdata, herrs]

/-- Claim C4: when options resolution fails — the options function throws,
or returns (or resolves to) a value that is not an options object — the
response has status 500 and a JSON body whose errors array holds the
options-resolution error, formatted (with the default formatter, the
options never having resolved). The failure is handled the same way when
parameter extraction has already failed. -/
theorem options_failure_is_500
    (engine : Engine) (ctx : KoaContext)
    (f : KoaRequest → Nat → KoaContext → Option GraphQLParams → OptionsOutcome) :
    (∀ p m, engine.getGraphQLParams ctx.request = .ok p →
      f ctx.request ctx.response ctx (some p) = .throws m →
      (middleware (.func f) engine ctx).status = 500 ∧
      (middleware (.func f) engine ctx).body =
        .json { data := none, errors := some [formatError { message := m }], extensions := none } false)
    ∧ (∀ p, engine.getGraphQLParams ctx.request = .ok p →
      f ctx.request ctx.response ctx (some p) = .value none →
      (middleware (.func f) engine ctx).status = 500 ∧
      (middleware (.func f) engine ctx).body =
        .json { data := none, errors := some [formatError { message := msgOptionsObject }], extensions := none } false)
    ∧ (∀ perr m, engine.getGraphQLParams ctx.request = .error perr →
      f ctx.request ctx.response ctx none = .throws m →
      (middleware (.func f) engine ctx).status = 500 ∧
      (middleware (.func f) engine ctx).body =
        .json { data := none, errors := some [formatError { message := m }], extensions := none } false) := by
  refine ⟨?_, ?_, ?_⟩
  · intro p m hparams hf
    simp only [middleware, hparams, resolveOptions, hf, finalize]
    simp [formatError]
  · intro p hparams hf
    simp only [middleware, hparams, resolveOptions, hf, finalize]
    simp [formatError, msgOptionsObject]
  · intro perr m hparams hf
    simp only [middleware, hparams, resolveOptions, hf, finalize]
    simp [formatError]

/-- Claim C5, counterexample: on the repository's own multiple-operation
request without an operation name (the test "Errors when missing operation
name"), the middleware answers 500 — not 400 as the claim states — while
the body carries exactly the message the claim quotes. -/
theorem missing_opname_not_400 :
    (middleware staticOptions testEngine (getCtx "q-two-ops")).status = 500
    ∧ ¬ (middleware staticOptions testEngine (getCtx "q-two-ops")).status = 400
    ∧ jsonErrors (middleware staticOptions testEngine (getCtx "q-two-ops")).body =
        some [{ message := msgNoOpName }] := by
  exact ⟨rfl, by decide, rfl⟩

/-- Claim C5, amended: a request whose query holds several operations and
that names none is answered by the engine with the
missing-operation-name error and no data, and the middleware reports a
result without data as a 500 error carrying that message. -/
theorem missing_opname_is_500
    (engine : Engine) (opts : Options) (ctx : KoaContext) (p : GraphQLParams)
    (od : OptionsData) (q : String) (doc : Document) (o₁ o₂ : OperationDef)
    (rest : List OperationDef)
    (hHTML : ctx.request.prefersHTML = false)
    (hparams : engine.getGraphQLParams ctx.request = .ok p)
    (hopts : (resolveOptions opts ctx (some p)).1 = .ok od)
    (hq : p.query = some q)
    (hname : p.operationName = none)
    (hschema : engine.validateSchema od.schema = [])
    (hparse : (od.customParseFn.getD engine.parse) q = .ok doc)
    (hmulti : doc.operations = o₁ :: o₂ :: rest)
    (hval : (od.customValidateFn.getD engine.validate) od.schema doc
        (engine.specifiedRules ++ od.validationRules.getD []) = [])
    (hext : od.extensions = none)
    (hexec : (od.customExecuteFn.getD engine.execute) (mkExecArgs od ctx doc p) =
      { data := none, errors := some [{ message := msgNoOpName }] }) :
    (middleware opts engine ctx).status = 500 ∧
    (middleware opts engine ctx).body =
      .json { data := none, errors := some [resolvedFormatter od { message := msgNoOpName }], extensions := none }
        (od.pretty.getD false) := by
  have hget : getOperationAST doc p.operationName = none := by
    simp [getOperationAST, hname, hmulti]
  simp only [middleware, hparams, hopts, mainPhase, hq, hschema, hparse, hval, hHTML,
    Bool.and_false, List.isEmpty_nil, hget, ite_self, applyExtensions, hext, hexec, finalize]
  simp

/-- Claim C6: when parameter extraction fails, the middleware still
resolves the options — calling the options function without parameters —
and formats the parse error with the resolved pretty flag and the
formatter chosen as customFormatErrorFn if present, else the deprecated
formatError option, else graphql-js's default formatError. -/
theorem param_error_still_resolves_options
    (engine : Engine) (ctx : KoaContext) (perr : ParamErr) (od : OptionsData)
    (f : KoaRequest → Nat → KoaContext → Option GraphQLParams → OptionsOutcome)
    (hparams : engine.getGraphQLParams ctx.request = .error perr)
    (h200 : perr.status ≠ 200)
    (hf : f ctx.request ctx.response ctx none = .value (some od)) :
    Event.optionsCalled ctx.request ctx.response ctx none ∈ (middleware (.func f) engine ctx).trace
    ∧ (middleware (.func f) engine ctx).status = perr.status
    ∧ (middleware (.func f) engine ctx).body =
      .json { data := none,
              errors := some [od.customFormatErrorFn.getD (od.formatError.getD formatError) { message := perr.message }],
              extensions := none }
        (od.pretty.getD false) := by
  simp only [middleware, hparams, resolveOptions, hf, finalize, resolvedFormatter]
  simp [h200]

/-- Claim C7: every request is processed in the fixed pipeline order —
parameter extraction, then options resolution, then document parse,
validation and execution, then formatting; when options is a function it
is invoked with exactly (request, response, ctx, params) where params is
the parsed parameter object; and execution uses the arguments assembled
from the resolved options on the document produced by the resolved parse
function, after validation with the resolved schema against the spec
rules extended by the additional validationRules. -/
theorem pipeline_order (opts : Options) (engine : Engine) (ctx : KoaContext) :
    ascending ((middleware opts engine ctx).trace.map phaseOf) = true
    ∧ (∀ f p r rs c ps, opts = .func f →
        engine.getGraphQLParams ctx.request = .ok p →
        Event.optionsCalled r rs c ps ∈ (middleware opts engine ctx).trace →
        r = ctx.request ∧ rs = ctx.response ∧ c = ctx ∧ ps = some p)
    ∧ (∀ p od args, engine.getGraphQLParams ctx.request = .ok p →
        (resolveOptions opts ctx (some p)).1 = .ok od →
        Event.executed args ∈ (middleware opts engine ctx).trace →
        ∃ q doc, p.query = some q ∧ (od.customParseFn.getD engine.parse) q = .ok doc ∧
          args = mkExecArgs od ctx doc p)
    ∧ (∀ p od s d rules, engine.getGraphQLParams ctx.request = .ok p →
        (resolveOptions opts ctx (some p)).1 = .ok od →
        Event.validated s d rules ∈ (middleware opts engine ctx).trace →
        s = od.schema ∧ rules = engine.specifiedRules ++ od.validationRules.getD []) := by
  refine ⟨?_, ?_, ?_, ?_⟩
  · rcases hp : engine.getGraphQLParams ctx.request with perr | p
    · rcases opts with od0 | f
      · simp only [middleware, hp, resolveOptions, finalize_trace]
        rfl
      · rcases hf : f ctx.request ctx.response ctx none with m | v
        · simp only [middleware, hp, resolveOptions, hf, finalize_trace]
          rfl
        · rcases v with _ | od0 <;>
            simp only [middleware, hp, resolveOptions, hf, finalize_trace] <;> rfl
    · rcases opts with od0 | f
      · simp only [middleware, hp, resolveOptions, mainPhase, finalize_trace]
        repeat' split
        all_goals first
          | rfl
          | (rw [finalize_trace]; rfl)
      · rcases hf : f ctx.request ctx.response ctx (some p) with m | v
        · simp only [middleware, hp, resolveOptions, hf, finalize_trace]
          rfl
        · rcases v with _ | od0
          · simp only [middleware, hp, resolveOptions, hf, finalize_trace]
            rfl
          · simp only [middleware, hp, resolveOptions, hf, mainPhase, finalize_trace]
            repeat' split
            all_goals first
              | rfl
              | (rw [finalize_trace]; rfl)
  · intro f p r rs c ps hof hp hmem
    subst hof
    rcases hf : f ctx.request ctx.response ctx (some p) with m | v
    · simp only [middleware, hp, resolveOptions, hf, finalize_trace] at hmem
      simpa using hmem
    · rcases v with _ | od0
      · simp only [middleware, hp, resolveOptions, hf, finalize_trace] at hmem
        simpa using hmem
      · simp only [middleware, hp, resolveOptions, hf] at hmem
        have h2 := mainPhase_optionsCalled _ _ _ _ _ _ _ _ _ hmem
        simpa using h2
  · intro p od args hp hro hmem
    rcases opts with od0 | f
    · simp only [resolveOptions] at hro
      injection hro with he
      subst he
      simp only [middleware, hp, resolveOptions] at hmem
      have h2 := mainPhase_executed _ _ _ _ _ _ hmem
      rcases h2 with h2 | h2
      · simp at h2
      · exact h2
    · rcases hf : f ctx.request ctx.response ctx (some p) with m | v
      · simp only [resolveOptions, hf] at hro
        exact Except.noConfusion hro
      · rcases v with _ | od0
        · simp only [resolveOptions, hf] at hro
          exact Except.noConfusion hro
        · simp only [resolveOptions, hf] at hro
          injection hro with he
          subst he
          simp only [middleware, hp, resolveOptions, hf] at hmem
          have h2 := mainPhase_executed _ _ _ _ _ _ hmem
          rcases h2 with h2 | h2
          · simp at h2
          · exact h2
  · intro p od s d rules hp hro hmem
    rcases opts with od0 | f
    · simp only [resolveOptions] at hro
      injection hro with he
      subst he
      simp only [middleware, hp, resolveOptions] at hmem
      have h2 := mainPhase_validated _ _ _ _ _ _ _ _ hmem
      rcases h2 with h2 | h2
      · simp at h2
      · exact h2
    · rcases hf : f ctx.request ctx.response ctx (some p) with m | v
      · simp only [resolveOptions, hf] at hro
        exact Except.noConfusion hro
      · rcases v with _ | od0
        · simp only [resolveOptions, hf] at hro
          exact Except.noConfusion hro
        · simp only [resolveOptions, hf] at hro
          injection hro with he
          subst he
          simp only [middleware, hp, resolveOptions, hf] at hmem
          have h2 := mainPhase_validated _ _ _ _ _ _ _ _ hmem
          rcases h2 with h2 | h2
          · simp at h2
          · exact h2

/-- Claim C8: every response body is either the GraphQL JSON response or
an HTML page embedding the GraphiQL IDE; the IDE page is served only when
the graphiql option is enabled, the raw parameter is not set and content
negotiation resolves to HTML; and on a request that executes with
GraphiQL shown, the page is pre-populated with the request's query,
variables and operation name and with its formatted execution result. -/
theorem body_shape_and_graphiql (opts : Options) (engine : Engine) (ctx : KoaContext) :
    ((∃ fres pr, (middleware opts engine ctx).body = .json fres pr)
      ∨ (∃ g, (middleware opts engine ctx).body = .html g))
    ∧ (∀ g, (middleware opts engine ctx).body = .html g →
        ∃ p od, engine.getGraphQLParams ctx.request = .ok p ∧
          (resolveOptions opts ctx (some p)).1 = .ok od ∧
          graphiqlEnabled (od.graphiql.getD .off) = true ∧
          p.raw = false ∧ ctx.request.prefersHTML = true)
    ∧ (∀ p od q doc r,
        engine.getGraphQLParams ctx.request = .ok p →
        (resolveOptions opts ctx (some p)).1 = .ok od →
        graphiqlEnabled (od.graphiql.getD .off) = true → p.raw = false →
        ctx.request.prefersHTML = true →
        p.query = some q →
        engine.validateSchema od.schema = [] →
        (od.customParseFn.getD engine.parse) q = .ok doc →
        (od.customValidateFn.getD engine.validate) od.schema doc
          (engine.specifiedRules ++ od.validationRules.getD []) = [] →
        (∀ op, (if ctx.request.method == "GET" then getOperationAST doc p.operationName else none) = some op →
          op.opType = .query) →
        od.extensions = none →
        (od.customExecuteFn.getD engine.execute) (mkExecArgs od ctx doc p) = r →
        (middleware opts engine ctx).body =
          .html { query := some q, vars := p.vars, operationName := p.operationName,
                  result := some { data := r.data,
                                   errors := r.errors.map (fun es => es.map (resolvedFormatter od)),
                                   extensions := r.extensions } }) := by
  refine ⟨?_, ?_, ?_⟩
  · cases hb : (middleware opts engine ctx).body with
    | json fres pr => exact Or.inl ⟨fres, pr, rfl⟩
    | html g => exact Or.inr ⟨g, rfl⟩
  · intro g hg
    rcases hp : engine.getGraphQLParams ctx.request with perr | p
    · rcases h1 : (resolveOptions opts ctx none).1 with oerr | od
      · simp only [middleware, hp, h1] at hg
        exact absurd (finalize_html _ _ _ _ _ _ _ hg) (by simp)
      · simp only [middleware, hp, h1] at hg
        exact absurd (finalize_html _ _ _ _ _ _ _ hg) (by simp)
    · rcases h1 : (resolveOptions opts ctx (some p)).1 with oerr | od
      · simp only [middleware, hp, h1] at hg
        exact absurd (finalize_html _ _ _ _ _ _ _ hg) (by simp)
      · simp only [middleware, hp, h1] at hg
        have h2 := mainPhase_html _ _ _ _ _ _ hg
        exact ⟨p, od, rfl, h1, h2.1, h2.2.1, h2.2.2⟩
  · intro p od q doc r hp hro hgql hraw hhtml hq hschema hparse hval hgate hext hexec
    simp only [middleware, hp, hro, mainPhase, hq, hschema, hparse, hval, List.isEmpty_nil,
      hgql, hraw, hhtml, Bool.not_false, Bool.and_self, Bool.true_and, Bool.and_true]
    rcases hg : (if ctx.request.method == "GET" then getOperationAST doc p.operationName else none) with _ | op
    · simp only [applyExtensions, hext, hexec, finalize]
      simp [hq]
    · have hop := hgate op hg
      simp only [hop, beq_self_eq_true, if_true, applyExtensions, hext, hexec, finalize]
      simp [hq]

/-- Claim C9: the middleware holds no state shared across requests: it is
a pure function of its options and the request context, so identical
requests receive identical responses, a batch of requests is handled
pointwise, and a request's outcome is unchanged by the requests handled
before it. -/
theorem middleware_stateless
    (opts : Options) (engine : Engine) (c₁ c₂ : KoaContext) (cs : List KoaContext) :
    (c₁ = c₂ → middleware opts engine c₁ = middleware opts engine c₂)
    ∧ runSequential opts engine cs = cs.map (middleware opts engine)
    ∧ runSequential opts engine (cs ++ [c₁]) =
        runSequential opts engine cs ++ [middleware opts engine c₁] := by
  refine ⟨fun h => by rw [h], ?_, ?_⟩
  · induction cs with
    | nil => rfl
    | cons c cs ih => simp [runSequential, ih]
  · induction cs with
    | nil => rfl
    | cons c cs ih => simp [runSequential, ih]

/-- Claim C10: when the resolved options carry no context value, the
execution arguments handed to the execute function carry the Koa context
itself as the context value. -/
theorem default_context_is_koa_ctx
    (engine : Engine) (opts : Options) (ctx : KoaContext) (p : GraphQLParams)
    (od : OptionsData) (q : String) (doc : Document)
    (hparams : engine.getGraphQLParams ctx.request = .ok p)
    (hopts : (resolveOptions opts ctx (some p)).1 = .ok od)
    (hq : p.query = some q)
    (hschema : engine.validateSchema od.schema = [])
    (hparse : (od.customParseFn.getD engine.parse) q = .ok doc)
    (hval : (od.customValidateFn.getD engine.validate) od.schema doc
        (engine.specifiedRules ++ od.validationRules.getD []) = [])
    (hgate : ∀ op, (if ctx.request.method == "GET" then getOperationAST doc p.operationName else none) = some op →
        op.opType = .query)
    (hctx : od.context = none) :
    Event.executed (mkExecArgs od ctx doc p) ∈ (middleware opts engine ctx).trace
    ∧ (mkExecArgs od ctx doc p).contextValue = Value.koaCtx ctx := by
  constructor
  · simp only [middleware, hparams, hopts, mainPhase, hq, hschema, hparse, hval,
      List.isEmpty_nil]
    rcases hg : (if ctx.request.method == "GET" then getOperationAST doc p.operationName else none) with _ | op
    · simp [finalize_trace]
    · have hop := hgate op hg
      simp only [hop]
      simp [finalize_trace]
  · simp [mkExecArgs, hctx]

/-- Witness for C1 on the repository's own test inputs: a mutation sent
via GET is answered 405 with the quoted message, and selecting the query
operation of a document that also holds a mutation succeeds with 200. -/
theorem get_mutation_405_iff_witness :
    ((middleware staticOptions testEngine (getCtx "q-mutation")).status = 405 ∧
      jsonErrors (middleware staticOptions testEngine (getCtx "q-mutation")).body =
        some [{ message := msg405 }])
    ∧ (middleware staticOptions testEngine (getCtx "q-two-ops-query")).status = 200 := by
  constructor
  · exact (get_mutation_405_iff testEngine staticOptions (getCtx "q-mutation")
      (mkParams (some qMutation) none) { schema := testSchema } qMutation mutationDoc
      rfl rfl rfl rfl rfl rfl rfl rfl rfl rfl).1.mpr ⟨opTestMutation, rfl, rfl⟩
  · exact (get_mutation_405_iff testEngine staticOptions (getCtx "q-two-ops-query")
      (mkParams (some qTwoOps) (some "TestQuery")) { schema := testSchema } qTwoOps twoOpDoc
      rfl rfl rfl rfl rfl rfl rfl rfl rfl rfl).2 opTestQuery { data := some helloWorld }
      helloWorld rfl rfl rfl rfl

/-- Witness for C2 on the repository's validation-error test input. -/
theorem validation_errors_are_400_witness :
    (middleware staticOptions testEngine (getCtx "q-invalid")).status = 400 ∧
    (middleware staticOptions testEngine (getCtx "q-invalid")).body =
      .json { data := none,
              errors := some [{ message := "Cannot query field unknownOne on type QueryRoot." },
                              { message := "Cannot query field unknownTwo on type QueryRoot." }],
              extensions := none } false := by
  exact validation_errors_are_400 testEngine staticOptions (getCtx "q-invalid")
    (mkParams (some qInvalid) none) { schema := testSchema } qInvalid invalidDoc
    [{ message := "Cannot query field unknownOne on type QueryRoot." },
     { message := "Cannot query field unknownTwo on type QueryRoot." }]
    rfl rfl rfl rfl rfl rfl rfl (by simp)

/-- Witness for C3 on the repository's thrower test input: a field error
is reported at 200 alongside the data. -/
theorem field_errors_are_200_witness :
    (middleware staticOptions testEngine (getCtx "q-thrower")).status = 200 ∧
    (middleware staticOptions testEngine (getCtx "q-thrower")).body =
      .json { data := some (.obj [("thrower", Value.null)]),
              errors := some [{ message := "Throws!" }],
              extensions := none } false := by
  exact field_errors_are_200 testEngine staticOptions (getCtx "q-thrower")
    (mkParams (some qThrower) none) { schema := testSchema } qThrower throwerDoc
    { data := some (.obj [("thrower", Value.null)]), errors := some [{ message := "Throws!" }] }
    (.obj [("thrower", Value.null)]) [{ message := "Throws!" }]
    rfl rfl rfl rfl rfl rfl rfl
    (by
      intro op h
      have h2 : some ({ name := some "Thrower", opType := OpType.query } : OperationDef) = some op := h
      injection h2 with h3
      rw [← h3])
    rfl rfl rfl rfl

/-- Witness for C4 on the repository's usage-test inputs: an options
function that throws, and one returning null, each yield a 500 response
carrying the error. -/
theorem options_failure_is_500_witness :
    ((middleware (.func fun _ _ _ _ => .throws "I did something wrong") testEngine (getCtx "q-simple")).status = 500 ∧
      (middleware (.func fun _ _ _ _ => .throws "I did something wrong") testEngine (getCtx "q-simple")).body =
        .json { data := none, errors := some [{ message := "I did something wrong" }], extensions := none } false)
    ∧ ((middleware (.func fun _ _ _ _ => .value none) testEngine (getCtx "q-simple")).status = 500 ∧
      (middleware (.func fun _ _ _ _ => .value none) testEngine (getCtx "q-simple")).body =
        .json { data := none, errors := some [{ message := msgOptionsObject }], extensions := none } false) := by
  constructor
  · exact (options_failure_is_500 testEngine (getCtx "q-simple")
      (fun _ _ _ _ => .throws "I did something wrong")).1
      (mkParams (some qSimple) none) "I did something wrong" rfl rfl
  · exact (options_failure_is_500 testEngine (getCtx "q-simple")
      (fun _ _ _ _ => .value none)).2.1
      (mkParams (some qSimple) none) rfl rfl

/-- Witness for the amended C5 on the repository's missing-operation-name
test input. -/
theorem missing_opname_is_500_witness :
    (middleware staticOptions testEngine (getCtx "q-two-ops")).status = 500 ∧
    (middleware staticOptions testEngine (getCtx "q-two-ops")).body =
      .json { data := none, errors := some [{ message := msgNoOpName }], extensions := none } false := by
  exact missing_opname_is_500 testEngine staticOptions (getCtx "q-two-ops")
    (mkParams (some qTwoOps) none) { schema := testSchema } qTwoOps twoOpDoc
    opTestQuery opTestMutation []
    rfl rfl rfl rfl rfl rfl rfl rfl rfl rfl rfl

/-- Witness for C6: a parameter-extraction failure still invokes the
options function without parameters, and the response uses the resolved
pretty flag and formatter on the parse error. -/
theorem param_error_still_resolves_options_witness :
    Event.optionsCalled (getCtx "bad-body").request (getCtx "bad-body").response (getCtx "bad-body") none ∈
      (middleware (.func fun _ _ _ _ => .value (some { schema := testSchema, pretty := some true }))
        testEngine (getCtx "bad-body")).trace
    ∧ (middleware (.func fun _ _ _ _ => .value (some { schema := testSchema, pretty := some true }))
        testEngine (getCtx "bad-body")).status = 400
    ∧ (middleware (.func fun _ _ _ _ => .value (some { schema := testSchema, pretty := some true }))
        testEngine (getCtx "bad-body")).body =
      .json { data := none, errors := some [{ message := "POST body sent invalid JSON." }],
              extensions := none } true := by
  exact param_error_still_resolves_options testEngine (getCtx "bad-body")
    { status := 400, message := "POST body sent invalid JSON." }
    { schema := testSchema, pretty := some true }
    (fun _ _ _ _ => .value (some { schema := testSchema, pretty := some true }))
    rfl (by decide) rfl

/-- Witness for C7 on a concrete run: the trace is in pipeline order, and
the execution event of the simple query carries exactly the arguments
assembled from the resolved options and the parsed document. -/
theorem pipeline_order_witness :
    ascending ((middleware staticOptions testEngine (getCtx "q-simple")).trace.map phaseOf) = true
    ∧ (∃ q doc, (mkParams (some qSimple) none).query = some q ∧
        (({ schema := testSchema } : OptionsData).customParseFn.getD testEngine.parse) q = .ok doc ∧
        mkExecArgs { schema := testSchema } (getCtx "q-simple") simpleDoc (mkParams (some qSimple) none) =
          mkExecArgs { schema := testSchema } (getCtx "q-simple") doc (mkParams (some qSimple) none)) := by
  constructor
  · exact (pipeline_order staticOptions testEngine (getCtx "q-simple")).1
  · exact (pipeline_order staticOptions testEngine (getCtx "q-simple")).2.2.1
      (mkParams (some qSimple) none) { schema := testSchema }
      (mkExecArgs { schema := testSchema } (getCtx "q-simple") simpleDoc (mkParams (some qSimple) none))
      rfl rfl (.tail _ (.tail _ (.tail _ (.head _))))

/-- Witness for C8: with graphiql enabled on an HTML-preferring GET
request, the simple query is answered with the GraphiQL page carrying the
query and its execution result. -/
theorem body_shape_and_graphiql_witness :
    (middleware (.object { schema := testSchema, graphiql := some .on }) testEngine (htmlGetCtx "q-simple")).body =
      .html { query := some qSimple, vars := none, operationName := none,
              result := some { data := some helloWorld, errors := none, extensions := none } } := by
  exact (body_shape_and_graphiql (.object { schema := testSchema, graphiql := some .on })
      testEngine (htmlGetCtx "q-simple")).2.2
    (mkParams (some qSimple) none) { schema := testSchema, graphiql := some .on } qSimple simpleDoc
    { data := some helloWorld }
    rfl rfl rfl rfl rfl rfl rfl rfl rfl
    (by
      intro op h
      have h2 : some ({ name := none, opType := OpType.query } : OperationDef) = some op := h
      injection h2 with h3
      rw [← h3])
    rfl rfl

/-- Witness for C9: a repeated identical request yields the identical
response, and a two-request batch is handled pointwise. -/
theorem middleware_stateless_witness :
    middleware staticOptions testEngine (getCtx "q-simple") =
      middleware staticOptions testEngine (getCtx "q-simple")
    ∧ runSequential staticOptions testEngine [getCtx "q-simple", getCtx "q-mutation"] =
        [getCtx "q-simple", getCtx "q-mutation"].map (middleware staticOptions testEngine) := by
  exact ⟨(middleware_stateless staticOptions testEngine (getCtx "q-simple") (getCtx "q-simple") []).1 rfl,
    (middleware_stateless staticOptions testEngine (getCtx "q-simple") (getCtx "q-simple")
      [getCtx "q-simple", getCtx "q-mutation"]).2.1⟩

/-- Witness for C10 on the repository's default-context test shape: with
no context option, execution receives the Koa context itself. -/
theorem default_context_is_koa_ctx_witness :
    Event.executed (mkExecArgs { schema := testSchema } (getCtx "q-simple") simpleDoc (mkParams (some qSimple) none)) ∈
      (middleware staticOptions testEngine (getCtx "q-simple")).trace
    ∧ (mkExecArgs { schema := testSchema } (getCtx "q-simple") simpleDoc (mkParams (some qSimple) none)).contextValue =
        Value.koaCtx (getCtx "q-simple") := by
  exact default_context_is_koa_ctx testEngine staticOptions (getCtx "q-simple")
    (mkParams (some qSimple) none) { schema := testSchema } qSimple simpleDoc
    rfl rfl rfl rfl rfl rfl
    (by
      intro op h
      have h2 : some ({ name := none, opType := OpType.query } : OperationDef) = some op := h
      injection h2 with h3
      rw [← h3])
    rfl

end KoaGraphql
